import Mathlib

/-!
Shallow embedding of the UX-auditor analysis core
(`src/services/heuristic_analyzer.py`, `src/services/ml_analyzer.py`,
`src/services/data_processor.py`, models from `src/models/models.py`)
and proofs about the specification's claims.

Python strings are modelled as `List Char` (`PyStr`); Python ints as `Int`;
Python floats as `ℝ`; `Dict[str, Any]` payloads as records of `Option`
fields (a missing key is `none`); Python `dict` tables as association
lists with overwrite-on-insert.
-/

namespace UxAuditor

/-- Python strings: a list of characters, so that `len`, slicing and
`strip` coincide with Python's character-level semantics. -/
abbrev PyStr := List Char

/-- Coerce a Lean string literal into the `PyStr` model. -/
def pstr (s : String) : PyStr := s.data

/-- Python `str.strip()`: drop whitespace from both ends. -/
def pyStrip (s : PyStr) : PyStr :=
  ((s.dropWhile Char.isWhitespace).reverse.dropWhile Char.isWhitespace).reverse

/-- Python `str.lower()` (ASCII case folding suffices for tag names). -/
def pyLower (s : PyStr) : PyStr := s.map Char.toLower

/-- Python rendering of an `int` inside an f-string. -/
def intStr (n : Int) : PyStr := (toString n).data

/-- Python rendering of a possibly-missing (`None`) int inside an f-string. -/
def optIntStr : Option Int → PyStr
  | some n => intStr n
  | none => pstr "None"

/-- Python rendering of a `bool` inside an f-string (`True` / `False`). -/
def boolStr : Bool → PyStr
  | true => pstr "True"
  | false => pstr "False"

/-! ### Data model (`src/models/models.py`)

`BoundingBox` carries `float` fields in the source; every value ever stored
in them is an integer expression (`y-25`, `x-25`, `50`), so they are
modelled as `Int`.  `InsightEvent.id` (a freshly generated uuid, never
inspected by the analysis core or by any claim) is omitted from the model. -/

structure BoundingBox where
  top : Int
  left : Int
  width : Int
  height : Int
deriving DecidableEq, Repr

structure InsightEvent where
  timestamp : Int
  type : String
  severity : String
  message : String
  boundingBox : Option BoundingBox
  algorithm : Option String
deriving DecidableEq, Repr

/-- A DOM snapshot node as handed to `_flatten_dom_tree`: the rrweb JSON
dict with the keys the code reads (`id`, `tagName`, `type`, `textContent`,
`attributes`, `childNodes`); a missing key is `none` / `[]`. -/
inductive Node where
  | mk : Option Int → Option PyStr → Option Int → Option PyStr →
      List (PyStr × PyStr) → List Node → Node

def Node.id : Node → Option Int
  | .mk i _ _ _ _ _ => i

def Node.tagName : Node → Option PyStr
  | .mk _ t _ _ _ _ => t

def Node.ntype : Node → Option Int
  | .mk _ _ ty _ _ _ => ty

def Node.textContent : Node → Option PyStr
  | .mk _ _ _ tc _ _ => tc

def Node.attributes : Node → List (PyStr × PyStr)
  | .mk _ _ _ _ a _ => a

def Node.childNodes : Node → List Node
  | .mk _ _ _ _ _ c => c

/-- The payload `data : Dict[str, Any]` of a raw rrweb event, restricted to
the keys the processing code reads. `positions` models
`data.get('positions', [])` (each entry a `[x, y, id, timeOffset]` array). -/
structure EventData where
  source : Option Int := none
  itype : Option Int := none
  x : Option Int := none
  y : Option Int := none
  tid : Option Int := none
  positions : List (List Int) := []
  href : Option PyStr := none
  width : Option Int := none
  height : Option Int := none
  text : Option PyStr := none
  isChecked : Option Bool := none
  node : Option Node := none

structure RRWebEvent where
  type : Int
  data : EventData
  timestamp : Int

/-! ### Stable sort

Both detectors sort by timestamp via Python's stable `list.sort` /
`sorted`; modelled by a stable insertion sort. -/

def insertSorted (le : α → α → Bool) (a : α) : List α → List α
  | [] => [a]
  | b :: l => if le a b then a :: b :: l else b :: insertSorted le a l

def pySortBy (le : α → α → Bool) : List α → List α
  | [] => []
  | a :: l => insertSorted le a (pySortBy le l)

/-! ### Rage-click heuristic (`src/services/heuristic_analyzer.py`)

The click dicts built on line 19. -/

structure Click where
  x : Int
  y : Int
  timestamp : Int
deriving DecidableEq, Repr, Inhabited

/-- Source `_calculate_distance` (lines 49-51): Euclidean distance. -/
noncomputable def calculate_distance (p q : Click) : ℝ :=
  Real.sqrt ((((p.x - q.x) ^ 2 + (p.y - q.y) ^ 2 : Int) : ℝ))

/-- Integer squared distance; the detector only ever compares the distance
against `30`, and `√d ≤ 30 ↔ d ≤ 900` (see `calculate_distance_le_30`),
which keeps the embedded scan executable. -/
def sqDist (p q : Click) : Int := (p.x - q.x) ^ 2 + (p.y - q.y) ^ 2

/-- The click filter (lines 17-19): interaction events of source 2 and
type 2; a missing coordinate defaults to `0` (`e.data.get('x', 0)`). -/
def filterClicks (events : List RRWebEvent) : List Click :=
  events.filterMap fun e =>
    if e.type = 3 ∧ e.data.source = some 2 ∧ e.data.itype = some 2 then
      some { x := e.data.x.getD 0, y := e.data.y.getD 0, timestamp := e.timestamp }
    else none

/-- Indices collected into the cluster anchored at `clicks[i]`
(lines 26-33): scan `j = i+1, …` until the 1000 ms window is exceeded
(`break`), keeping the `j` whose distance from the anchor is ≤ 30 px. -/
def clusterIdx (clicks : List Click) (i : Nat) : List Nat :=
  i :: (((List.range' (i + 1) (clicks.length - (i + 1))).takeWhile
      fun j => decide ((clicks.getD j default).timestamp
        - (clicks.getD i default).timestamp ≤ 1000)).filter
      fun j => decide (sqDist (clicks.getD i default) (clicks.getD j default) ≤ 900))

/-- The InsightEvent built for a detected cluster (lines 36-43); the
anchor `cluster[0]` supplies timestamp and bounding box. -/
def mkRageInsight (c : Click) : InsightEvent :=
  { timestamp := c.timestamp
    type := "heuristic"
    severity := "critical"
    message := "Rage Click Detected"
    boundingBox := some { top := c.y - 25, left := c.x - 25, width := 50, height := 50 }
    algorithm := some "RuleBased" }

/-- The `while i < len(clicks) - 2` scan (lines 24-46), instrumented to
also return the list of anchor indices it considers.  The loop body
increases `i` by at least 1 every iteration, so `fuel = clicks.length`
(supplied at every call site) always suffices for the guard
`i < clicks.length - 2` to fail before the fuel runs out. -/
def rageLoop (clicks : List Click) : Nat → Nat → List InsightEvent × List Nat
  | 0, _ => ([], [])
  | fuel + 1, i =>
    if i < clicks.length - 2 then
      let cl := clusterIdx clicks i
      if 3 ≤ cl.length then
        let rest := rageLoop clicks fuel (i + cl.length)
        (mkRageInsight (clicks.getD i default) :: rest.1, i :: rest.2)
      else
        let rest := rageLoop clicks fuel (i + 1)
        (rest.1, i :: rest.2)
    else ([], [])

/-- Anchor indices considered by the scan over a (sorted) click list. -/
def rageAnchors (clicks : List Click) : List Nat :=
  (rageLoop clicks clicks.length 0).2

/-- The anchor index the scan moves to after examining anchor `i`
(lines 44 and 46): `i + len(cluster)` after an emission, else `i + 1`. -/
def nextAnchor (clicks : List Click) (i : Nat) : Nat :=
  if 3 ≤ (clusterIdx clicks i).length then i + (clusterIdx clicks i).length else i + 1

/-- Source `detect_rage_clicks` (lines 4-47). -/
def detect_rage_clicks (events : List RRWebEvent) : List InsightEvent :=
  let clicks := filterClicks events
  if clicks.length < 3 then []
  else
    let sorted := pySortBy (fun a b => a.timestamp ≤ b.timestamp) clicks
    (rageLoop sorted sorted.length 0).1

/-! ### Kinematic anomaly detector (`src/services/ml_analyzer.py`)

`KinematicVector` is declared in `src/services/data_processor.py`
(integer timestamp delta and integer coordinates). -/

structure KinematicVector where
  timestamp : Int
  x : Int
  y : Int
deriving DecidableEq, Repr, Inhabited

/-- Model of `numpy.arctan2 y x`: the angle of the vector `(x, y)`, by the usual
quadrant case analysis over `Real.arctan`. -/
noncomputable def atan2 (y x : ℝ) : ℝ :=
  if 0 < x then Real.arctan (y / x)
  else if x < 0 then
    (if 0 ≤ y then Real.arctan (y / x) + Real.pi else Real.arctan (y / x) - Real.pi)
  else
    (if 0 < y then Real.pi / 2 else if y < 0 then -(Real.pi / 2) else 0)

/-- Source `calculate_angle` (lines 74-76): bearing from `p` to `q`. -/
noncomputable def calculate_angle (p q : KinematicVector) : ℝ :=
  atan2 (((q.y - p.y : Int) : ℝ)) (((q.x - p.x : Int) : ℝ))

/-- Source `ml_analyzer.calculate_distance` (lines 70-72), on kinematic points. -/
noncomputable def kin_distance (p q : KinematicVector) : ℝ :=
  Real.sqrt ((((p.x - q.x) ^ 2 + (p.y - q.y) ^ 2 : Int) : ℝ))

/-- Python float `%` with a positive divisor: `x - y * ⌊x / y⌋`. -/
noncomputable def pymod (x y : ℝ) : ℝ := x - y * ⌊x / y⌋

/-- Line 40: `(angle - prev_angle + np.pi) % (2 * np.pi) - np.pi`,
wrapping an angle difference into `[-π, π)`. -/
noncomputable def wrapAngle (d : ℝ) : ℝ :=
  pymod (d + Real.pi) (2 * Real.pi) - Real.pi

/-- One `[velocity, delta_angle]` feature row together with the point
`p2 = move_points[i]` appended to `valid_points` alongside it. -/
structure MotionFeature where
  velocity : ℝ
  delta_angle : ℝ
  point : KinematicVector

/-- The millisecond gap of the consecutive pair at index `i`:
`move_points[i].timestamp - move_points[i-1].timestamp`.  The code tests
`dt <= 0` on `dt = gap / 1000.0`, which for a positive divisor is the same
sign test (see `dt_le_zero_iff`). -/
def dtMs (pts : List KinematicVector) (i : Nat) : Int :=
  (pts.getD i default).timestamp - (pts.getD (i - 1) default).timestamp

/-- The bearing angle of the consecutive pair at index `i`:
`calculate_angle(move_points[i-1], move_points[i])`. -/
noncomputable def bearing (pts : List KinematicVector) (i : Nat) : ℝ :=
  calculate_angle (pts.getD (i - 1) default) (pts.getD i default)

/-- One iteration of the feature-engineering loop of
`detect_behavioral_anomalies` (lines 28-45) at loop index `i`:
`p1 = move_points[i-1]`, `p2 = move_points[i]`; the pair is skipped when
`dt <= 0`; `delta_angle` is `0` when `i == 1` and otherwise the wrapped
difference with the bearing of the pair `(move_points[i-2],
move_points[i-1])`. -/
noncomputable def motionFeatureAt (pts : List KinematicVector) (i : Nat) :
    Option MotionFeature :=
  if dtMs pts i ≤ 0 then none
  else
    let p1 := pts.getD (i - 1) default
    let p2 := pts.getD i default
    some
      { velocity := kin_distance p1 p2 / ((dtMs pts i : ℝ) / 1000)
        delta_angle :=
          if 1 < i then
            wrapAngle (calculate_angle p1 p2 -
              calculate_angle (pts.getD (i - 2) default) p1)
          else 0
        point := p2 }

/-- The whole loop: `for i in range(1, len(move_points))`. -/
noncomputable def motionFeatures (pts : List KinematicVector) : List MotionFeature :=
  ((List.range pts.length).drop 1).filterMap (motionFeatureAt pts)

/-- The InsightEvent built for a flagged outlier point (lines 60-67). -/
def mkMotionInsight (p : KinematicVector) : InsightEvent :=
  { timestamp := p.timestamp
    type := "usability"
    severity := "medium"
    message := "Erratic Movement Detected (AI)"
    boundingBox := some { top := p.y - 25, left := p.x - 25, width := 50, height := 50 }
    algorithm := some "IsolationForest" }

/-- Source `detect_behavioral_anomalies` (lines 7-68).  The fitted
`sklearn.ensemble.IsolationForest` is an external library; with
`random_state=42` its `fit_predict` is a deterministic function of the
feature matrix, modelled by the abstract parameter `score` (`true` at a
row models the prediction `-1`, i.e. outlier). -/
noncomputable def detect_behavioral_anomalies
    (score : List (ℝ × ℝ) → List Bool)
    (kinematics : List KinematicVector) : List InsightEvent :=
  if kinematics.length < 10 then []
  else
    let move_points := pySortBy (fun a b => a.timestamp ≤ b.timestamp) kinematics
    let fs := motionFeatures move_points
    if fs.length = 0 then []
    else if fs.length < 2 then []
    else
      ((score (fs.map fun f => (f.velocity, f.delta_angle))).zip fs).filterMap
        fun pf => if pf.1 then some (mkMotionInsight pf.2.point) else none

/-! ### Session preprocessor (`src/services/data_processor.py`) -/

structure UserAction where
  timestamp : Int
  action_type : String
  target_id : Option Int
  details : Option PyStr
deriving DecidableEq, Repr

structure ProcessedSession where
  initial_timestamp : Int
  total_duration : Int
  kinematics : List KinematicVector
  actions : List UserAction
  dom_map : List (Int × PyStr)
deriving DecidableEq, Repr

/-- Source `SessionPreprocessor.IGNORED_TAGS`. -/
def ignoredTags : List PyStr :=
  [pstr "script", pstr "style", pstr "link", pstr "meta", pstr "noscript"]

/-- Source `SessionPreprocessor.RELEVANT_ATTRS`. -/
def relevantAttrs : List PyStr :=
  [pstr "id", pstr "class", pstr "name", pstr "type", pstr "aria-label",
   pstr "placeholder", pstr "value", pstr "href", pstr "role"]

/-- Source `node.get('tagName', '').lower()` (line 208). -/
def Node.tagLower (n : Node) : PyStr := pyLower (n.tagName.getD [])

/-- Python truthiness of `node_id` (`None` and `0` are falsy). -/
def Node.pyIdTruthy (n : Node) : Bool :=
  match n.id with
  | some v => v != 0
  | none => false

/-- Python truthiness of the lowered `tag_name` (empty string is falsy). -/
def Node.pyTagTruthy (n : Node) : Bool := !n.tagLower.isEmpty

/-- Python dict assignment `dom_map[k] = v`: overwrite in place if the key
exists, else append. -/
def dinsert (m : List (Int × PyStr)) (k : Int) (v : PyStr) : List (Int × PyStr) :=
  if m.any (fun p => p.1 = k) then
    m.map (fun p => if p.1 = k then (k, v) else p)
  else m ++ [(k, v)]

/-- Python `dom_map.get(key, default)`, where a missing (`None`) key also
yields the default. -/
def dget (m : List (Int × PyStr)) (k : Option Int) (d : PyStr) : PyStr :=
  match k with
  | some key =>
    match m.find? (fun p => p.1 = key) with
    | some p => p.2
    | none => d
  | none => d

/-- Attribute-suffix construction (lines 220-227): whitelisted attributes,
values longer than 50 characters truncated to 47 + ellipsis. -/
def attrsStr (n : Node) : PyStr :=
  n.attributes.foldl
    (fun acc kv =>
      if kv.1 ∈ relevantAttrs then
        let v := if 50 < kv.2.length then kv.2.take 47 ++ pstr "..." else kv.2
        acc ++ pstr " " ++ kv.1 ++ pstr "=\"" ++ v ++ pstr "\""
      else acc)
    []

/-- Immediate text-node concatenation (lines 230-236): each type-3 child's
stripped `textContent`, when non-empty, followed by a single space. -/
def nodeText (n : Node) : PyStr :=
  n.childNodes.foldl
    (fun acc c =>
      if c.ntype = some 3 then
        let raw := pyStrip (c.textContent.getD [])
        if raw ≠ [] then acc ++ raw ++ pstr " " else acc
      else acc)
    []

/-- The truncation of lines 238-239: over 30 characters becomes the first
30 characters plus `"..."`. -/
def truncText (t : PyStr) : PyStr :=
  if 30 < t.length then t.take 30 ++ pstr "..." else t

/-- The inline-text portion of the stored markup:
`text_content.strip()` after truncation (line 242). -/
def innerText (n : Node) : PyStr := pyStrip (truncText (nodeText n))

/-- Source `simplified_html` (line 242): `<tag attrs>text</tag>`. -/
def simplifiedHtml (n : Node) : PyStr :=
  pstr "<" ++ n.tagLower ++ attrsStr n ++ pstr ">" ++ innerText n ++
    pstr "</" ++ n.tagLower ++ pstr ">"

mutual

/-- Source `SessionPreprocessor._flatten_dom_tree` (lines 200-248): early return
on an ignored tag; emit the node when both id and tag are truthy; then
recurse into the children. -/
def flattenDom : Node → List (Int × PyStr) → List (Int × PyStr)
  | n@(.mk _ _ _ _ _ children), m =>
    if n.tagLower ∈ ignoredTags then m
    else
      let m' :=
        if n.pyIdTruthy && n.pyTagTruthy then
          dinsert m (n.id.getD 0) (simplifiedHtml n)
        else m
      flattenList children m'

/-- The `for child in node['childNodes']` recursion of `_flatten_dom_tree`. -/
def flattenList : List Node → List (Int × PyStr) → List (Int × PyStr)
  | [], m => m
  | c :: cs, m => flattenList cs (flattenDom c m)

end

mutual

/-- The nodes the flattener emits an entry for: reachable without crossing
an ignored-tag node, with truthy id and tag. -/
def keptNodes : Node → List Node
  | n@(.mk _ _ _ _ _ children) =>
    if n.tagLower ∈ ignoredTags then []
    else (if n.pyIdTruthy && n.pyTagTruthy then [n] else []) ++
      keptNodesList children

def keptNodesList : List Node → List Node
  | [] => []
  | c :: cs => keptNodes c ++ keptNodesList cs

end

/-- The mutable state of the single `process` loop. -/
structure PState where
  kin : List KinematicVector
  act : List UserAction
  dom : List (Int × PyStr)
  last : Int
deriving Repr

/-- Python truthiness of `data.get('href')`. -/
def hrefTruthy : Option PyStr → Bool
  | some s => !s.isEmpty
  | none => false

/-- Python truthiness of `data.get('width')`. -/
def widthTruthy : Option Int → Bool
  | some w => w != 0
  | none => false

/-- The handling of one `pos` entry of a pointer-move payload
(lines 131-144): `[x, y, id, timeOffset]`; tuples shorter than 2 are
skipped, a missing offset (length < 4) is `0`, and only non-negative
coordinates produce a vector. -/
def posVector (delta : Int) (pos : List Int) : Option KinematicVector :=
  if 2 ≤ pos.length then
    let x := pos.getD 0 0
    let y := pos.getD 1 0
    let off := if 4 ≤ pos.length then pos.getD 3 0 else 0
    if 0 ≤ x ∧ 0 ≤ y then
      some { timestamp := delta + off, x := x, y := y }
    else none
  else none

/-- One iteration of the `for event in events` loop of
`SessionPreprocessor.process` (lines 92-185). -/
def stepEvent (start : Int) (s : PState) (e : RRWebEvent) : PState :=
  let delta := e.timestamp - start
  let s := { s with last := e.timestamp }
  if e.type = 2 then
    match e.data.node with
    | some root => { s with dom := flattenDom root s.dom }
    | none => s
  else if e.type = 4 then
    if hrefTruthy e.data.href then
      { s with act := s.act ++
          [{ timestamp := delta, action_type := "navigation", target_id := none
             details := some (pstr "URL: " ++ e.data.href.getD []) }] }
    else if widthTruthy e.data.width then
      { s with act := s.act ++
          [{ timestamp := delta, action_type := "resize", target_id := none
             details := some (pstr "Viewport: " ++ intStr (e.data.width.getD 0) ++
               pstr "x" ++ optIntStr e.data.height) }] }
    else s
  else if e.type = 3 then
    if e.data.source = some 1 then
      { s with kin := s.kin ++ e.data.positions.filterMap (posVector delta) }
    else if e.data.source = some 2 then
      if e.data.itype = some 2 then
        { s with act := s.act ++
            [{ timestamp := delta, action_type := "click", target_id := e.data.tid
               details := some (pstr "Element: " ++
                 dget s.dom e.data.tid (pstr "unknown_element") ++
                 pstr " | Coords: (" ++ optIntStr e.data.x ++ pstr ", " ++
                 optIntStr e.data.y ++ pstr ")") }] }
      else s
    else if e.data.source = some 5 then
      let text_val := e.data.text.getD []
      let details :=
        match e.data.isChecked with
        | some b => pstr "Checked: " ++ boolStr b
        | none =>
          pstr "Typed: '" ++
            (if 40 < text_val.length then text_val.take 40 ++ pstr "..." else text_val) ++
            pstr "'"
      let ctx := dget s.dom e.data.tid []
      let details := if ctx ≠ [] then details ++ pstr " on " ++ ctx else details
      { s with act := s.act ++
          [{ timestamp := delta, action_type := "input", target_id := e.data.tid
             details := some details }] }
    else s
  else s

/-- The loop of `process`, folded from an initial state. -/
def processAux (start : Int) (s : PState) (events : List RRWebEvent) : PState :=
  events.foldl (stepEvent start) s

/-- The session start timestamp: `events[0].timestamp`. -/
def startOf : List RRWebEvent → Int
  | [] => 0
  | e :: _ => e.timestamp

/-- Source `SessionPreprocessor.process` (lines 49-198): empty input yields the
zero session; otherwise a single pass over the events. -/
def process (events : List RRWebEvent) : ProcessedSession :=
  match events with
  | [] => { initial_timestamp := 0, total_duration := 0
            kinematics := [], actions := [], dom_map := [] }
  | e0 :: _ =>
    let start := e0.timestamp
    let s := processAux start { kin := [], act := [], dom := [], last := start } events
    { initial_timestamp := start, total_duration := s.last - start
      kinematics := s.kin, actions := s.act, dom_map := s.dom }

/-- Remove the malformed (fewer than 2 elements) position tuples from a
pointer-move payload; used to state that such tuples contribute nothing. -/
def dropShortPositions (e : RRWebEvent) : RRWebEvent :=
  { e with data :=
      { e.data with positions := e.data.positions.filter fun pos => decide (2 ≤ pos.length) } }

/-- Make the rage-click default for missing click coordinates explicit:
replace an absent `x`/`y` by an explicit `0`. -/
def fillClickCoords (e : RRWebEvent) : RRWebEvent :=
  { e with data :=
      { e.data with x := some (e.data.x.getD 0), y := some (e.data.y.getD 0) } }

/-! ### State-passing renderings of the three public operations

Each body of the source reads its list argument and builds fresh local
lists (`sorted(...)`, a fresh `clicks` list, fresh buckets); no statement
assigns into the argument, so the translated call returns the argument
unchanged alongside the result. -/

def processCall (events : List RRWebEvent) : ProcessedSession × List RRWebEvent :=
  (process events, events)

noncomputable def detectBehavioralCall (score : List (ℝ × ℝ) → List Bool)
    (kinematics : List KinematicVector) :
    List InsightEvent × List KinematicVector :=
  (detect_behavioral_anomalies score kinematics, kinematics)

def detectRageCall (events : List RRWebEvent) :
    List InsightEvent × List RRWebEvent :=
  (detect_rage_clicks events, events)

/-! ## Concrete inputs used by the claims -/

/-- The three clicks of the spec's `detect_rage_clicks` test property:
(100,100)@t=0, (110,105)@t=200, (120,95)@t=400, as interaction events. -/
def ex1events : List RRWebEvent :=
  [{ type := 3, data := { source := some 2, itype := some 2, x := some 100, y := some 100 }, timestamp := 0 },
   { type := 3, data := { source := some 2, itype := some 2, x := some 110, y := some 105 }, timestamp := 200 },
   { type := 3, data := { source := some 2, itype := some 2, x := some 120, y := some 95 }, timestamp := 400 }]

/-- The sorted click list extracted from `ex1events`. -/
def ex1clicks : List Click := [⟨100, 100, 0⟩, ⟨110, 105, 200⟩, ⟨120, 95, 400⟩]

/-- Six clicks on the x-axis: the anchor cluster at index 0 accepts
indices 2 and 3 but rejects index 1 (1000 px away, inside the window),
so `i += len(cluster)` re-anchors at index 3 — a member of the first
cluster — and index 1 is never considered again. -/
def ex3clicks : List Click :=
  [⟨0, 0, 0⟩, ⟨1000, 0, 10⟩, ⟨10, 0, 20⟩, ⟨20, 0, 30⟩, ⟨45, 0, 40⟩, ⟨50, 0, 50⟩]

/-- Three click interaction events whose payloads carry no `x`/`y` keys. -/
def exMissingCoords : List RRWebEvent :=
  [{ type := 3, data := { source := some 2, itype := some 2 }, timestamp := 0 },
   { type := 3, data := { source := some 2, itype := some 2 }, timestamp := 100 },
   { type := 3, data := { source := some 2, itype := some 2 }, timestamp := 200 }]

/-- Ten kinematic points whose first consecutive pair is a duplicate
timestamp (`dt = 0`, dropped), so the first retained pair is the pair at
index 2. -/
def ex2pts : List KinematicVector :=
  [⟨0, 0, 0⟩, ⟨0, 10, 0⟩, ⟨100, 10, 10⟩, ⟨200, 20, 10⟩, ⟨300, 30, 10⟩,
   ⟨400, 40, 10⟩, ⟨500, 50, 10⟩, ⟨600, 60, 10⟩, ⟨700, 70, 10⟩, ⟨800, 80, 10⟩]

/-- A div node whose single immediate text child holds 35 characters. -/
def ex5node : Node :=
  .mk (some 1) (some (pstr "div")) none none []
    [.mk none none (some 3) (some (pstr "aaaaaaaaaaaaaaaaaaaaaaaaaaaaaaaaaaa")) [] []]

/-- A script node with an id-carrying div below it. -/
def ex6node : Node :=
  .mk (some 5) (some (pstr "script")) none none []
    [.mk (some 7) (some (pstr "div")) none none [] []]

/-- A navigation meta event (no snapshot) preceding the click below. -/
def ex10pre : List RRWebEvent :=
  [{ type := 4, data := { href := some (pstr "http://a") }, timestamp := 0 }]

/-- A click on node 7, occurring before any snapshot has been seen. -/
def ex10click : RRWebEvent :=
  { type := 3,
    data := { source := some 2, itype := some 2, x := some 10, y := some 20, tid := some 7 },
    timestamp := 100 }

/-- A later full snapshot that does define node 7. -/
def ex10post : List RRWebEvent :=
  [{ type := 2,
     data := { node := some (.mk (some 7) (some (pstr "button")) none none [] []) },
     timestamp := 200 }]

/-! ## Helper lemmas -/

theorem mem_insertSorted (le : α → α → Bool) (a x : α) (l : List α) :
    x ∈ insertSorted le a l ↔ x = a ∨ x ∈ l := by
  induction l with
  | nil => simp [insertSorted]
  | cons b t ih =>
    by_cases h : le a b
    · simp [insertSorted, h]
    · simp only [insertSorted, h, if_neg]
      simp [ih]
      tauto

theorem mem_pySortBy (le : α → α → Bool) (x : α) (l : List α) :
    x ∈ pySortBy le l ↔ x ∈ l := by
  induction l with
  | nil => simp [pySortBy]
  | cons a t ih => simp [pySortBy, mem_insertSorted, ih]

/-- The scan's squared-distance test is the source's
`_calculate_distance(...) <= 30`. -/
theorem calculate_distance_le_30 (p q : Click) :
    calculate_distance p q ≤ 30 ↔ sqDist p q ≤ 900 := by
  unfold calculate_distance sqDist
  rw [Real.sqrt_le_left (by norm_num : (0:ℝ) ≤ 30)]
  rw [show ((30:ℝ) ^ 2) = ((900 : Int) : ℝ) by norm_num]
  exact Int.cast_le

/-- The feature loop's drop test on the millisecond gap is the source's
`dt <= 0` on `dt = gap / 1000.0`. -/
theorem dt_le_zero_iff (g : Int) : ((g : ℝ) / 1000 ≤ 0) ↔ g ≤ 0 := by
  rw [div_nonpos_iff]
  constructor
  · rintro (⟨_, h2⟩ | ⟨h1, _⟩)
    · norm_num at h2
    · exact_mod_cast h1
  · intro h
    exact Or.inr ⟨by exact_mod_cast h, by norm_num⟩

/-! ## Claim C1 -/

/-- Claim C1, counterexample: on the three clicks of the claim the
detector emits exactly one insight, but its message is
`"Rage Click Detected"` (not `"Rage click detected"`) and its algorithm
tag is `"RuleBased"` (not `"rule-based"`). -/
theorem C1_counterexample :
    (detect_rage_clicks ex1events).map (fun i => (i.message, i.algorithm)) =
      [("Rage Click Detected", some "RuleBased")] ∧
    ("Rage Click Detected" : String) ≠ "Rage click detected" ∧
    (some "RuleBased" : Option String) ≠ some "rule-based" := by
  decide

/-- Claim C1 as amended: for the clicks (100,100)@0, (110,105)@200,
(120,95)@400, `detect_rage_clicks` returns exactly one InsightEvent with
type (category) `heuristic`, severity `critical`, message
`"Rage Click Detected"`, algorithm `"RuleBased"`, timestamp 0 and
bounding box {top:75, left:75, width:50, height:50}. -/
theorem C1_rage_click_concrete :
    detect_rage_clicks ex1events =
      [{ timestamp := 0, type := "heuristic", severity := "critical",
         message := "Rage Click Detected",
         boundingBox := some { top := 75, left := 75, width := 50, height := 50 },
         algorithm := some "RuleBased" }] := by
  decide

/-! ## Claim C3 -/

/-- The anchor indices visited by the scan form a chain under
`nextAnchor`, and the first visited anchor is the starting index. -/
theorem rageLoop_anchors_chain (clicks : List Click) :
    ∀ fuel i,
      List.Chain' (fun a b => b = nextAnchor clicks a) (rageLoop clicks fuel i).2 ∧
      ∀ x, (rageLoop clicks fuel i).2.head? = some x → x = i := by
  intro fuel
  induction fuel with
  | zero =>
    intro i
    refine ⟨by simp [rageLoop], ?_⟩
    intro x hx
    simp [rageLoop] at hx
  | succ f ih =>
    intro i
    unfold rageLoop
    by_cases hg : i < clicks.length - 2
    · rw [if_pos hg]
      by_cases h3 : 3 ≤ (clusterIdx clicks i).length
      · rw [if_pos h3]
        refine ⟨?_, ?_⟩
        · apply List.chain'_cons'.mpr
          refine ⟨?_, (ih (i + (clusterIdx clicks i).length)).1⟩
          intro y hy
          have hyi := (ih (i + (clusterIdx clicks i).length)).2 y hy
          rw [hyi, nextAnchor, if_pos h3]
        · intro x hx
          simpa using hx.symm
      · rw [if_neg h3]
        refine ⟨?_, ?_⟩
        · apply List.chain'_cons'.mpr
          refine ⟨?_, (ih (i + 1)).1⟩
          intro y hy
          have hyi := (ih (i + 1)).2 y hy
          rw [hyi, nextAnchor, if_neg h3]
        · intro x hx
          simpa using hx.symm
    · rw [if_neg hg]
      exact ⟨by simp, by intro x hx; simp at hx⟩

/-- Claim C3, counterexample: in the six sorted clicks `ex3clicks`, the
cluster anchored at index 0 is {0, 2, 3} (click 1 is inside the 1000 ms
window but rejected by the 30 px test); the scan then re-anchors at
index 3 — a member of the just-emitted cluster, not strictly after its
last member — and the rejected click 1 is never considered as an anchor. -/
theorem C3_counterexample :
    rageAnchors ex3clicks = [0, 3] ∧
    clusterIdx ex3clicks 0 = [0, 2, 3] ∧
    (ex3clicks.getD 1 default).timestamp - (ex3clicks.getD 0 default).timestamp ≤ 1000 ∧
    ¬ sqDist (ex3clicks.getD 0 default) (ex3clicks.getD 1 default) ≤ 900 ∧
    (3 : Nat) ∈ clusterIdx ex3clicks 0 ∧
    (1 : Nat) ∉ rageAnchors ex3clicks := by
  decide

/-- Claim C3 as amended: after a cluster of size `k ≥ 3` is emitted at
anchor `i`, the next anchor considered is `i + k` (the anchors form a
chain under `nextAnchor`); only when the accepted members are the
contiguous block starting at the anchor is every cluster member strictly
below the next anchor. -/
theorem C3_anchor_advance (clicks : List Click) :
    List.Chain' (fun a b => b = nextAnchor clicks a) (rageAnchors clicks) ∧
    (∀ i, 3 ≤ (clusterIdx clicks i).length →
      clusterIdx clicks i = List.range' i (clusterIdx clicks i).length →
      ∀ j ∈ clusterIdx clicks i, j < nextAnchor clicks i) := by
  constructor
  · exact (rageLoop_anchors_chain clicks clicks.length 0).1
  · intro i h3 hcont j hj
    rw [hcont, List.mem_range'] at hj
    obtain ⟨k, hk, rfl⟩ := hj
    rw [nextAnchor, if_pos h3]
    omega

/-- Witness for C3: on the contiguous cluster {0,1,2} of `ex1clicks`,
its last member 2 lies strictly below the next anchor. -/
theorem C3_witness : 2 < nextAnchor ex1clicks 0 :=
  (C3_anchor_advance ex1clicks).2 0 (by decide) (by decide) 2 (by decide)

/-! ## Claim C4 -/

/-- Every feature row's attached point (`valid_points[idx]`) is one of
the input points. -/
theorem motionFeatures_point_mem {pts : List KinematicVector} {f : MotionFeature}
    (h : f ∈ motionFeatures pts) : f.point ∈ pts := by
  unfold motionFeatures at h
  rw [List.mem_filterMap] at h
  obtain ⟨i, hi, hf⟩ := h
  unfold motionFeatureAt at hf
  have hil : i < pts.length := by
    have := List.mem_of_mem_drop hi
    simpa [List.mem_range] using this
  by_cases hd : dtMs pts i ≤ 0
  · rw [if_pos hd] at hf
    cases hf
  · rw [if_neg hd] at hf
    injection hf with hf
    subst hf
    show pts.getD i default ∈ pts
    rw [List.getD_eq_getElem pts default hil]
    exact List.getElem_mem hil

/-- Every insight the scan emits is built by `mkRageInsight` from one of
the clicks. -/
theorem rageLoop_insights (clicks : List Click) :
    ∀ fuel i ins, ins ∈ (rageLoop clicks fuel i).1 →
      ∃ j, j < clicks.length ∧ ins = mkRageInsight (clicks.getD j default) := by
  intro fuel
  induction fuel with
  | zero =>
    intro i ins h
    simp [rageLoop] at h
  | succ f ih =>
    intro i ins h
    unfold rageLoop at h
    by_cases hg : i < clicks.length - 2
    · rw [if_pos hg] at h
      by_cases h3 : 3 ≤ (clusterIdx clicks i).length
      · rw [if_pos h3] at h
        simp only [List.mem_cons] at h
        rcases h with h | h
        · exact ⟨i, by omega, h⟩
        · exact ih _ ins h
      · rw [if_neg h3] at h
        exact ih _ ins h
    · rw [if_neg hg] at h
      simp at h

/-- Claim C4: every InsightEvent either detector emits carries a bounding
box that is the 50×50 square with `left = x - 25`, `top = y - 25` around
its associated point — the flagged kinematic point for the motion
detector, the cluster anchor click for the rage-click detector. -/
theorem C4_bounding_box (score : List (ℝ × ℝ) → List Bool)
    (kinematics : List KinematicVector) (events : List RRWebEvent) :
    (detect_behavioral_anomalies score kinematics).Forall
      (fun ins => ∃ p, p ∈ kinematics ∧ ins.timestamp = p.timestamp ∧
        ins.boundingBox =
          some { top := p.y - 25, left := p.x - 25, width := 50, height := 50 }) ∧
    (detect_rage_clicks events).Forall
      (fun ins => ∃ c, c ∈ filterClicks events ∧ ins.timestamp = c.timestamp ∧
        ins.boundingBox =
          some { top := c.y - 25, left := c.x - 25, width := 50, height := 50 }) := by
  constructor
  · rw [List.forall_iff_forall_mem]
    intro ins hins
    dsimp only [detect_behavioral_anomalies] at hins
    split_ifs at hins with h10 h0 h2
    · simp at hins
    · simp at hins
    · simp at hins
    · rw [List.mem_filterMap] at hins
      obtain ⟨⟨b, f⟩, hpf, hbf⟩ := hins
      by_cases hb : b
      · subst hb
        rw [if_pos rfl] at hbf
        injection hbf with hbf
        subst hbf
        have hf : f ∈ motionFeatures
            (pySortBy (fun a b => a.timestamp ≤ b.timestamp) kinematics) :=
          (List.of_mem_zip hpf).2
        have hp := motionFeatures_point_mem hf
        rw [mem_pySortBy] at hp
        exact ⟨f.point, hp, rfl, rfl⟩
      · simp only [hb] at hbf
        simp at hbf
  · rw [List.forall_iff_forall_mem]
    intro ins hins
    dsimp only [detect_rage_clicks] at hins
    split_ifs at hins with h3
    · simp at hins
    · obtain ⟨j, hj, rfl⟩ := rageLoop_insights _ _ _ _ hins
      set sorted := pySortBy (fun a b : Click => a.timestamp ≤ b.timestamp)
        (filterClicks events) with hs
      have hmem : sorted.getD j default ∈ sorted := by
        rw [List.getD_eq_getElem sorted default hj]
        exact List.getElem_mem hj
      rw [hs, mem_pySortBy] at hmem
      exact ⟨sorted.getD j default, hmem, rfl, rfl⟩

/-! ## Claim C2 -/

/-- Claim C2 as amended: the retained feature rows are exactly those of
the consecutive-pair indices `i ≥ 1` with a positive timestamp gap, and
the `delta_angle` of the row at index `i` is `0` exactly when `i = 1`
(the first consecutive pair of the sorted list, retained or not) and
otherwise wraps the difference between the bearings of pair `i` and of
the immediately preceding pair `i - 1` — whether or not pair `i - 1` was
itself retained. -/
theorem C2_delta_angle (pts : List KinematicVector) :
    motionFeatures pts =
      (((List.range pts.length).drop 1).filter fun i => decide (0 < dtMs pts i)).map
        fun i =>
          { velocity := kin_distance (pts.getD (i - 1) default) (pts.getD i default) /
              ((dtMs pts i : ℝ) / 1000)
            delta_angle :=
              if i = 1 then 0 else wrapAngle (bearing pts i - bearing pts (i - 1))
            point := pts.getD i default } := by
  have hmem : ∀ i ∈ (List.range pts.length).drop 1, 1 ≤ i := by
    cases hn : pts.length with
    | zero => simp
    | succ m =>
      rw [List.range_succ_eq_map]
      simp only [List.drop_one, List.tail_cons]
      intro i hi
      rw [List.mem_map] at hi
      obtain ⟨k, _, rfl⟩ := hi
      omega
  unfold motionFeatures bearing
  generalize (List.range pts.length).drop 1 = l at hmem ⊢
  induction l with
  | nil => simp
  | cons a t ih =>
    have ha : 1 ≤ a := hmem a (by simp)
    have ht : ∀ i ∈ t, 1 ≤ i := fun i hi => hmem i (by simp [hi])
    by_cases hd : dtMs pts a ≤ 0
    · rw [List.filterMap_cons_none
          (show motionFeatureAt pts a = none from by
            unfold motionFeatureAt
            rw [if_pos hd]),
        List.filter_cons_of_neg (by simpa using Int.not_lt.mpr hd), ih ht]
    · rw [List.filterMap_cons_some
          (show motionFeatureAt pts a = some
              { velocity := kin_distance (pts.getD (a - 1) default) (pts.getD a default) /
                  ((dtMs pts a : ℝ) / 1000)
                delta_angle :=
                  if 1 < a then
                    wrapAngle (calculate_angle (pts.getD (a - 1) default) (pts.getD a default) -
                      calculate_angle (pts.getD (a - 2) default) (pts.getD (a - 1) default))
                  else 0
                point := pts.getD a default } from by
            unfold motionFeatureAt
            rw [if_neg hd]),
        List.filter_cons_of_pos (by simpa using Int.not_le.mp hd),
        List.map_cons, ih ht]
      congr 1
      simp only [MotionFeature.mk.injEq]
      refine ⟨trivial, ?_, trivial⟩
      rcases Nat.lt_or_ge 1 a with h | h
      · rw [if_pos h, if_neg (by omega)]
        have h2 : a - 1 - 1 = a - 2 := by omega
        rw [h2]
      · have h1 : a = 1 := by omega
        subst h1
        rw [if_neg (by omega), if_pos rfl]

/-- Claim C2, counterexample: in `ex2pts` the pair at index 1 is dropped
(`dt = 0`), so the first retained pair is the pair at index 2 — and its
`delta_angle` is `π/2`, not `0`: the code takes the difference with the
bearing of the dropped pair, not `0` for the first retained pair. -/
theorem C2_counterexample :
    (motionFeatures (pySortBy (fun a b : KinematicVector => a.timestamp ≤ b.timestamp)
        ex2pts)).head?.map MotionFeature.delta_angle = some (Real.pi / 2) ∧
    Real.pi / 2 ≠ 0 ∧
    10 ≤ ex2pts.length ∧
    dtMs ex2pts 1 ≤ 0 := by
  have hpi : Real.pi / 2 ≠ 0 := by positivity
  refine ⟨?_, hpi, by decide, by decide⟩
  rw [show pySortBy (fun a b : KinematicVector => a.timestamp ≤ b.timestamp) ex2pts
      = ex2pts from by decide]
  have ha1 : calculate_angle (ex2pts.getD 0 default) (ex2pts.getD 1 default) = 0 := by
    rw [show ex2pts.getD 0 default = ⟨0, 0, 0⟩ from by decide,
      show ex2pts.getD 1 default = ⟨0, 10, 0⟩ from by decide]
    unfold calculate_angle atan2
    norm_num [Real.arctan_zero]
  have ha2 : calculate_angle (ex2pts.getD 1 default) (ex2pts.getD 2 default)
      = Real.pi / 2 := by
    rw [show ex2pts.getD 1 default = ⟨0, 10, 0⟩ from by decide,
      show ex2pts.getD 2 default = ⟨100, 10, 10⟩ from by decide]
    unfold calculate_angle atan2
    norm_num
  have hw : wrapAngle (Real.pi / 2 - 0) = Real.pi / 2 := by
    unfold wrapAngle pymod
    rw [show (Real.pi / 2 - 0 + Real.pi) / (2 * Real.pi) = 3 / 4 by
      field_simp
      ring]
    rw [show ⌊(3 : ℝ) / 4⌋ = 0 from by
      rw [Int.floor_eq_zero_iff]
      constructor <;> norm_num]
    push_cast
    ring
  unfold motionFeatures
  rw [show (List.range ex2pts.length).drop 1 = 1 :: 2 :: [3, 4, 5, 6, 7, 8, 9] from by decide]
  rw [List.filterMap_cons_none
      (show motionFeatureAt ex2pts 1 = none from by
        unfold motionFeatureAt
        rw [if_pos (by decide)])]
  rw [List.filterMap_cons_some
      (show motionFeatureAt ex2pts 2 = some
          { velocity := kin_distance (ex2pts.getD 1 default) (ex2pts.getD 2 default) /
              ((dtMs ex2pts 2 : ℝ) / 1000)
            delta_angle :=
              if 1 < 2 then
                wrapAngle (calculate_angle (ex2pts.getD 1 default) (ex2pts.getD 2 default) -
                  calculate_angle (ex2pts.getD 0 default) (ex2pts.getD 1 default))
              else 0
            point := ex2pts.getD 2 default } from by
        unfold motionFeatureAt
        rw [if_neg (by decide)])]
  rw [List.head?_cons, Option.map_some']
  congr 1
  rw [ha2, ha1, hw]
  simp

/-! ## Claims C5 and C6 -/

/-- Entries of a dict after an assignment: an old entry or the new pair. -/
theorem mem_dinsert {m : List (Int × PyStr)} {k : Int} {v : PyStr} {p : Int × PyStr}
    (h : p ∈ dinsert m k v) : p ∈ m ∨ p = (k, v) := by
  unfold dinsert at h
  split_ifs at h with hk
  · rw [List.mem_map] at h
    obtain ⟨q, hq, hpq⟩ := h
    by_cases hq1 : q.1 = k
    · rw [if_pos hq1] at hpq
      exact Or.inr hpq.symm
    · rw [if_neg hq1] at hpq
      exact Or.inl (hpq ▸ hq)
  · rw [List.mem_append] at h
    rcases h with h | h
    · exact Or.inl h
    · simp only [List.mem_singleton] at h
      exact Or.inr h

mutual

/-- Every entry of the flattened map is an entry of the initial map or
the serialization of a kept node of the tree. -/
theorem flattenDom_entries : ∀ (n : Node) (m : List (Int × PyStr)) (p : Int × PyStr),
    p ∈ flattenDom n m →
    p ∈ m ∨ ∃ u ∈ keptNodes n, p = (u.id.getD 0, simplifiedHtml u)
  | .mk i t ty tc attrs children, m, p => by
    intro h
    rw [flattenDom] at h
    by_cases hig : (Node.mk i t ty tc attrs children).tagLower ∈ ignoredTags
    · rw [if_pos hig] at h
      exact Or.inl h
    · rw [if_neg hig] at h
      rcases flattenList_entries children _ p h with h' | ⟨u, hu, he⟩
      · by_cases hemit : (Node.mk i t ty tc attrs children).pyIdTruthy &&
            (Node.mk i t ty tc attrs children).pyTagTruthy
        · rw [if_pos hemit] at h'
          rcases mem_dinsert h' with h'' | h''
          · exact Or.inl h''
          · refine Or.inr ⟨Node.mk i t ty tc attrs children, ?_, h''⟩
            rw [keptNodes, if_neg hig, if_pos hemit]
            simp
        · rw [if_neg hemit] at h'
          exact Or.inl h'
      · refine Or.inr ⟨u, ?_, he⟩
        rw [keptNodes, if_neg hig]
        rw [List.mem_append]
        exact Or.inr hu

/-- List version of `flattenDom_entries` for the child recursion. -/
theorem flattenList_entries : ∀ (l : List Node) (m : List (Int × PyStr)) (p : Int × PyStr),
    p ∈ flattenList l m →
    p ∈ m ∨ ∃ u ∈ keptNodesList l, p = (u.id.getD 0, simplifiedHtml u)
  | [], m, p => by
    intro h
    rw [flattenList] at h
    exact Or.inl h
  | c :: cs, m, p => by
    intro h
    rw [flattenList] at h
    rcases flattenList_entries cs _ p h with h' | ⟨u, hu, he⟩
    · rcases flattenDom_entries c m p h' with h'' | ⟨u, hu, he⟩
      · exact Or.inl h''
      · refine Or.inr ⟨u, ?_, he⟩
        rw [keptNodesList, List.mem_append]
        exact Or.inl hu
    · refine Or.inr ⟨u, ?_, he⟩
      rw [keptNodesList, List.mem_append]
      exact Or.inr hu

end

/-- Dropping a while-matched head never lengthens a list. -/
theorem length_dropWhileWS_le (l : PyStr) :
    (l.dropWhile Char.isWhitespace).length ≤ l.length := by
  induction l with
  | nil => simp
  | cons a t ih =>
    rw [List.dropWhile_cons]
    by_cases ha : Char.isWhitespace a
    · simp only [ha, if_true]
      simp only [List.length_cons]
      omega
    · simp [ha]

/-- Python `strip` never lengthens a string. -/
theorem length_pyStrip_le (s : PyStr) : (pyStrip s).length ≤ s.length := by
  unfold pyStrip
  have h1 := length_dropWhileWS_le s
  have h2 := length_dropWhileWS_le (s.dropWhile Char.isWhitespace).reverse
  simp only [List.length_reverse] at h2 ⊢
  omega

/-- The stored inline text is at most 33 characters: at most the first 30
characters of the concatenated text plus the 3-character ellipsis. -/
theorem innerText_le_33 (n : Node) : (innerText n).length ≤ 33 := by
  unfold innerText truncText
  by_cases h : 30 < (nodeText n).length
  · rw [if_pos h]
    have hs := length_pyStrip_le ((nodeText n).take 30 ++ pstr "...")
    have hl : ((nodeText n).take 30 ++ pstr "...").length ≤ 33 := by
      rw [List.length_append, List.length_take]
      have h3 : (pstr "...").length = 3 := by decide
      omega
    omega
  · rw [if_neg h]
    have hs := length_pyStrip_le (nodeText n)
    omega

/-- Claim C5 as amended: every value the flattener stores is the
serialization of a kept node whose inline-text portion is at most 33
characters — the first 30 characters plus a 3-character ellipsis when the
concatenated text exceeds 30 characters, never more. -/
theorem C5_inner_text (t : Node) (m : List (Int × PyStr)) (k : Int) (v : PyStr)
    (h : (k, v) ∈ flattenDom t m) :
    (k, v) ∈ m ∨ ∃ u ∈ keptNodes t, v = simplifiedHtml u ∧ (innerText u).length ≤ 33 := by
  rcases flattenDom_entries t m (k, v) h with h' | ⟨u, hu, he⟩
  · exact Or.inl h'
  · rw [Prod.ext_iff] at he
    exact Or.inr ⟨u, hu, he.2, innerText_le_33 u⟩

/-- Claim C5, counterexample: a 35-character text child is stored as the
first 30 characters plus `"..."` — an inline text of 33 characters, which
exceeds the claimed 30-character bound. -/
theorem C5_counterexample :
    flattenDom ex5node [] =
      [(1, pstr "<div>aaaaaaaaaaaaaaaaaaaaaaaaaaaaaa...</div>")] ∧
    (innerText ex5node).length = 33 ∧
    ¬ (innerText ex5node).length ≤ 30 := by
  decide

/-- Witness for C5 at the concrete tree `ex5node`. -/
theorem C5_witness :
    ((1, pstr "<div>aaaaaaaaaaaaaaaaaaaaaaaaaaaaaa...</div>") ∈ ([] : List (Int × PyStr))) ∨
    ∃ u ∈ keptNodes ex5node,
      pstr "<div>aaaaaaaaaaaaaaaaaaaaaaaaaaaaaa...</div>" = simplifiedHtml u ∧
      (innerText u).length ≤ 33 :=
  C5_inner_text ex5node [] 1 _ (by decide)

/-- Claim C6: an ignored-tag node contributes nothing — the flattener
returns the map unchanged and keeps no node of that subtree — and every
entry of a map built from the empty map is the serialization of a kept
node, i.e. of a node reachable without crossing an ignored tag. -/
theorem C6_ignored_subtrees :
    (∀ (n : Node) (m : List (Int × PyStr)),
      n.tagLower ∈ ignoredTags → flattenDom n m = m) ∧
    (∀ n : Node, n.tagLower ∈ ignoredTags → keptNodes n = []) ∧
    (∀ (t : Node) (k : Int) (v : PyStr), (k, v) ∈ flattenDom t [] →
      ∃ u ∈ keptNodes t, k = u.id.getD 0 ∧ v = simplifiedHtml u) := by
  refine ⟨?_, ?_, ?_⟩
  · intro n m hig
    cases n with
    | mk i t ty tc attrs children => rw [flattenDom, if_pos hig]
  · intro n hig
    cases n with
    | mk i t ty tc attrs children => rw [keptNodes, if_pos hig]
  · intro t k v h
    rcases flattenDom_entries t [] (k, v) h with h' | ⟨u, hu, he⟩
    · simp at h'
    · rw [Prod.ext_iff] at he
      exact ⟨u, hu, he.1, he.2⟩

/-- Witness for C6: flattening the script node `ex6node` (whose subtree
contains an id-carrying div) changes nothing. -/
theorem C6_witness : flattenDom ex6node [] = [] :=
  C6_ignored_subtrees.1 ex6node [] (by decide)

/-! ## Claim C7 -/

/-- A malformed position tuple contributes no kinematic vector. -/
theorem posVector_short {delta : Int} {pos : List Int} (h : ¬ 2 ≤ pos.length) :
    posVector delta pos = none := by
  unfold posVector
  rw [if_neg h]

/-- Removing the malformed position tuples leaves the extracted vectors
unchanged. -/
theorem filterMap_posVector_filter (delta : Int) (l : List (List Int)) :
    ((l.filter fun pos => decide (2 ≤ pos.length)).filterMap (posVector delta)) =
      l.filterMap (posVector delta) := by
  induction l with
  | nil => simp
  | cons a t ih =>
    by_cases h : 2 ≤ a.length
    · rw [List.filter_cons_of_pos (by simpa using h)]
      simp only [List.filterMap_cons, ih]
    · rw [List.filter_cons_of_neg (by simpa using h), ih,
        List.filterMap_cons_none (posVector_short h)]

set_option maxHeartbeats 1000000 in
/-- One loop step is unchanged by removing malformed position tuples. -/
theorem stepEvent_dropShort (start : Int) (s : PState) (e : RRWebEvent) :
    stepEvent start s (dropShortPositions e) = stepEvent start s e := by
  cases e with
  | mk ty d ts =>
    cases d with
    | mk src it x y tid poss href w hgt txt chk nd =>
      unfold stepEvent dropShortPositions
      dsimp only
      split_ifs <;> first
        | rfl
        | rw [filterMap_posVector_filter]

/-- The whole pass is unchanged by removing malformed position tuples. -/
theorem processAux_dropShort (start : Int) (l : List RRWebEvent) :
    ∀ s, processAux start s (l.map dropShortPositions) = processAux start s l := by
  induction l with
  | nil => intro s; rfl
  | cons e t ih =>
    intro s
    unfold processAux at *
    simp only [List.map_cons, List.foldl_cons]
    rw [stepEvent_dropShort]
    exact ih _

/-- Unfolding of `process` on a non-empty stream. -/
theorem process_eq (evs : List RRWebEvent) (h : evs ≠ []) :
    process evs =
      { initial_timestamp := startOf evs
        total_duration :=
          (processAux (startOf evs)
            { kin := [], act := [], dom := [], last := startOf evs } evs).last - startOf evs
        kinematics :=
          (processAux (startOf evs)
            { kin := [], act := [], dom := [], last := startOf evs } evs).kin
        actions :=
          (processAux (startOf evs)
            { kin := [], act := [], dom := [], last := startOf evs } evs).act
        dom_map :=
          (processAux (startOf evs)
            { kin := [], act := [], dom := [], last := startOf evs } evs).dom } := by
  cases evs with
  | nil => exact absurd rfl h
  | cons e0 rest => rfl

/-- Claim C7 as amended: malformed pointer-move position tuples are
skipped — removing them leaves `process` unchanged, and the (total) pass
covers all remaining events — but a click with missing `x`/`y` is not
skipped: the rage-click filter defaults the missing coordinate to `0`,
identically to an explicit `(0, 0)` click. -/
theorem C7_malformed_fields :
    (∀ events : List RRWebEvent,
      process (events.map dropShortPositions) = process events) ∧
    (∀ events : List RRWebEvent,
      filterClicks (events.map fillClickCoords) = filterClicks events) ∧
    (∀ events : List RRWebEvent,
      detect_rage_clicks (events.map fillClickCoords) = detect_rage_clicks events) := by
  have hfc : ∀ events : List RRWebEvent,
      filterClicks (events.map fillClickCoords) = filterClicks events := by
    intro events
    unfold filterClicks
    rw [List.filterMap_map]
    rfl
  refine ⟨?_, hfc, ?_⟩
  · intro events
    cases events with
    | nil => rfl
    | cons e0 rest =>
      rw [List.map_cons, process_eq _ (by simp), process_eq _ (by simp)]
      have hs : startOf (dropShortPositions e0 :: rest.map dropShortPositions) =
          startOf (e0 :: rest) := rfl
      rw [hs, show dropShortPositions e0 :: rest.map dropShortPositions =
          (e0 :: rest).map dropShortPositions from rfl, processAux_dropShort]
  · intro events
    unfold detect_rage_clicks
    rw [hfc]

/-- Claim C7, counterexample: three click events with no `x`/`y` at all
still form a rage-click cluster at the fabricated coordinates (0, 0) —
their coordinate contribution is defaulted, not skipped (skipping would
leave no cluster and an empty result). -/
theorem C7_counterexample :
    detect_rage_clicks exMissingCoords =
      [{ timestamp := 0, type := "heuristic", severity := "critical",
         message := "Rage Click Detected",
         boundingBox := some { top := -25, left := -25, width := 50, height := 50 },
         algorithm := some "RuleBased" }] ∧
    detect_rage_clicks exMissingCoords ≠ [] ∧
    exMissingCoords.map (fun e => (e.data.x, e.data.y)) =
      [(none, none), (none, none), (none, none)] := by
  decide

/-! ## Claim C8 -/

/-- Claim C8: `process` is deterministic — on identical inputs the two
results agree structurally, field by field: same start timestamp and
duration, same kinematic vectors and actions (counts, order and values),
and the same markup lookup.  The embedding is a pure function of the
event list, mirroring that the source reads no state outside its
argument and uses no randomness. -/
theorem C8_deterministic (events1 events2 : List RRWebEvent) (h : events1 = events2) :
    (process events1).initial_timestamp = (process events2).initial_timestamp ∧
    (process events1).total_duration = (process events2).total_duration ∧
    (process events1).kinematics = (process events2).kinematics ∧
    (process events1).actions = (process events2).actions ∧
    (process events1).dom_map = (process events2).dom_map := by
  subst h
  exact ⟨rfl, rfl, rfl, rfl, rfl⟩

/-- Witness for C8 at a concrete event list. -/
theorem C8_witness :
    (process ex1events).initial_timestamp = (process ex1events).initial_timestamp ∧
    (process ex1events).total_duration = (process ex1events).total_duration ∧
    (process ex1events).kinematics = (process ex1events).kinematics ∧
    (process ex1events).actions = (process ex1events).actions ∧
    (process ex1events).dom_map = (process ex1events).dom_map :=
  C8_deterministic ex1events ex1events rfl

/-! ## Claim C9 -/

/-- Claim C9: none of the three public operations mutates its argument —
in the state-passing rendering each call returns its list argument
unchanged next to the usual result (the sources build fresh locals:
`sorted(...)`, a fresh `clicks` list, fresh buckets; the preprocessor's
in-place sort is commented out). -/
theorem C9_no_mutation :
    (∀ events : List RRWebEvent,
      (processCall events).2 = events ∧ (processCall events).1 = process events) ∧
    (∀ (score : List (ℝ × ℝ) → List Bool) (ks : List KinematicVector),
      (detectBehavioralCall score ks).2 = ks ∧
      (detectBehavioralCall score ks).1 = detect_behavioral_anomalies score ks) ∧
    (∀ events : List RRWebEvent,
      (detectRageCall events).2 = events ∧
      (detectRageCall events).1 = detect_rage_clicks events) :=
  ⟨fun _ => ⟨rfl, rfl⟩, fun _ _ => ⟨rfl, rfl⟩, fun _ => ⟨rfl, rfl⟩⟩

/-! ## Claim C10 -/

/-- An empty lookup yields the default, whatever the key. -/
theorem dget_nil (k : Option Int) (d : PyStr) : dget [] k d = d := by
  cases k <;> rfl

/-- A step never removes actions: it appends zero or one. -/
theorem stepEvent_act_extend (start : Int) (s : PState) (e : RRWebEvent) :
    ∃ t, (stepEvent start s e).act = s.act ++ t := by
  unfold stepEvent
  by_cases h2 : e.type = 2
  · rw [if_pos h2]
    cases e.data.node with
    | none => exact ⟨[], by simp⟩
    | some root => exact ⟨[], by simp⟩
  · rw [if_neg h2]
    split_ifs <;> first
      | exact ⟨_, rfl⟩
      | exact ⟨[], (List.append_nil _).symm⟩

/-- Folding a stream never removes actions. -/
theorem processAux_act_extend (start : Int) (l : List RRWebEvent) :
    ∀ s, ∃ t, (processAux start s l).act = s.act ++ t := by
  induction l with
  | nil => intro s; exact ⟨[], by simp [processAux]⟩
  | cons e es ih =>
    intro s
    obtain ⟨t1, h1⟩ := stepEvent_act_extend start s e
    obtain ⟨t2, h2⟩ := ih (stepEvent start s e)
    refine ⟨t1 ++ t2, ?_⟩
    show (processAux start (stepEvent start s e) es).act = _
    rw [h2, h1, List.append_assoc]

/-- A non-snapshot event leaves the markup lookup unchanged. -/
theorem stepEvent_dom_of_ne2 (start : Int) (s : PState) (e : RRWebEvent)
    (h : e.type ≠ 2) : (stepEvent start s e).dom = s.dom := by
  unfold stepEvent
  rw [if_neg h]
  split_ifs <;> rfl

/-- A snapshot-free stream leaves the markup lookup unchanged. -/
theorem processAux_dom_no_snapshot (start : Int) (l : List RRWebEvent)
    (h : ∀ ev ∈ l, ev.type ≠ 2) : ∀ s, (processAux start s l).dom = s.dom := by
  induction l with
  | nil => intro s; rfl
  | cons e es ih =>
    intro s
    have he : e.type ≠ 2 := h e (by simp)
    have hes : ∀ ev ∈ es, ev.type ≠ 2 := fun ev hv => h ev (by simp [hv])
    show (processAux start (stepEvent start s e) es).dom = s.dom
    rw [ih hes, stepEvent_dom_of_ne2 start s e he]

/-- The step taken on a click event. -/
theorem stepEvent_click (start : Int) (s : PState) (e : RRWebEvent)
    (h3 : e.type = 3) (hsrc : e.data.source = some 2) (hit : e.data.itype = some 2) :
    stepEvent start s e =
      { s with
        last := e.timestamp
        act := s.act ++
          [{ timestamp := e.timestamp - start, action_type := "click",
             target_id := e.data.tid,
             details := some (pstr "Element: " ++
               dget s.dom e.data.tid (pstr "unknown_element") ++
               pstr " | Coords: (" ++ optIntStr e.data.x ++ pstr ", " ++
               optIntStr e.data.y ++ pstr ")") }] } := by
  unfold stepEvent
  rw [if_neg (by rw [h3]; decide), if_neg (by rw [h3]; decide), if_pos h3,
    if_neg (by rw [hsrc]; decide), if_pos hsrc, if_pos hit]

/-- Claim C10: a click processed before any full-snapshot event has been
seen is enriched with the fallback `unknown_element`, even when the same
stream later defines the clicked node id — the lookup is read at click
time within the single pass. -/
theorem C10_click_before_snapshot (pre post : List RRWebEvent) (e : RRWebEvent)
    (hpre : ∀ ev ∈ pre, ev.type ≠ 2) (h3 : e.type = 3)
    (hsrc : e.data.source = some 2) (hit : e.data.itype = some 2) :
    (process (pre ++ e :: post)).actions[
        (processAux (startOf (pre ++ e :: post))
          { kin := [], act := [], dom := [], last := startOf (pre ++ e :: post) }
          pre).act.length]? =
      some { timestamp := e.timestamp - startOf (pre ++ e :: post),
             action_type := "click", target_id := e.data.tid,
             details := some (pstr "Element: unknown_element | Coords: (" ++
               optIntStr e.data.x ++ pstr ", " ++ optIntStr e.data.y ++ pstr ")") } := by
  rw [process_eq _ (by simp)]
  dsimp only
  set start := startOf (pre ++ e :: post) with hstart
  set s0 : PState := { kin := [], act := [], dom := [], last := start } with hs0
  have hsplit : processAux start s0 (pre ++ e :: post) =
      processAux start (stepEvent start (processAux start s0 pre) e) post := by
    unfold processAux
    rw [List.foldl_append, List.foldl_cons]
  set A := processAux start s0 pre with hA
  have hdom : A.dom = [] := by
    rw [hA]
    exact processAux_dom_no_snapshot start pre hpre s0
  have hclick := stepEvent_click start A e h3 hsrc hit
  rw [hdom, dget_nil] at hclick
  obtain ⟨t, ht⟩ := processAux_act_extend start post (stepEvent start A e)
  show (processAux start s0 (pre ++ e :: post)).act[A.act.length]? = _
  rw [hsplit, ht, hclick]
  show (A.act ++ _ ++ t)[A.act.length]? = _
  rw [List.append_assoc, List.getElem?_append_right (le_refl _), Nat.sub_self]
  rw [show pstr "Element: " ++ pstr "unknown_element" ++ pstr " | Coords: (" =
    pstr "Element: unknown_element | Coords: (" from by decide]
  simp

/-- Witness for C10: a navigation event, then the click on node 7, then a
snapshot that defines node 7 — the click action still reads
`unknown_element`. -/
theorem C10_witness :
    (process (ex10pre ++ ex10click :: ex10post)).actions[
        (processAux (startOf (ex10pre ++ ex10click :: ex10post))
          { kin := [], act := [], dom := [],
            last := startOf (ex10pre ++ ex10click :: ex10post) }
          ex10pre).act.length]? =
      some { timestamp := ex10click.timestamp - startOf (ex10pre ++ ex10click :: ex10post),
             action_type := "click", target_id := ex10click.data.tid,
             details := some (pstr "Element: unknown_element | Coords: (" ++
               optIntStr ex10click.data.x ++ pstr ", " ++
               optIntStr ex10click.data.y ++ pstr ")") } :=
  C10_click_before_snapshot ex10pre ex10post ex10click
    (by
      intro ev hv
      simp only [ex10pre, List.mem_singleton] at hv
      subst hv
      decide)
    (by decide) (by decide) (by decide)

end UxAuditor
